import Mathlib

set_option linter.unusedVariables false

/-! Shallow embedding of the dungeon-crawl core of the Dungeon Escape
repository.  The repository ships two variants of the same game: a
console build (nogui.cpp) and an SFML GUI build.  Where the two variants
implement an operation identically a single Lean definition is used;
where they differ (useMove, sortInventory, advanceToNextRoom, the game
loop) both are embedded, suffixed GUI / Nogui.  C++ `int` fields are
embedded as `Int`. -/

/-- Treasure: two item strings and a key (the key is unused by gameplay). -/
structure Treasure where
  item1 : String
  item2 : String
  key : String
deriving DecidableEq

/-- Enemy: name, description, and health, where health is the health
threshold the player needs in order to defeat the enemy. -/
structure Enemy where
  name : String
  description : String
  health : Int
deriving DecidableEq

/-- Room: name, enemy, treasure and challenge string. -/
structure Room where
  name : String
  enemy : Enemy
  treasure : Treasure
  challenge : String
deriving DecidableEq

/-- Player: the Character fields (name, health) plus inventory, moves,
coins and enemiesDefeated. -/
structure Player where
  name : String
  health : Int
  inventory : List String
  moves : Int
  coins : Int
  enemiesDefeated : Int
deriving DecidableEq

/-- The Player constructor: health 100, moves 10, coins 0,
enemiesDefeated 0, empty inventory. -/
def Player.start (n : String) : Player :=
  { name := n, health := 100, inventory := [], moves := 10, coins := 0,
    enemiesDefeated := 0 }

/-- Character::takeDamage: health -= damage, clamped below at 0. -/
def Player.takeDamage (p : Player) (damage : Int) : Player :=
  let h := p.health - damage
  { p with health := if h < 0 then 0 else h }

/-- Player::heal: health += amount, capped at 100. -/
def Player.heal (p : Player) (amount : Int) : Player :=
  let h := p.health + amount
  { p with health := if h > 100 then 100 else h }

/-- Player::addToInventory: push_back of the item string (the GUI
template version streams the item through a stringstream, which is the
identity on the strings the game ever passes). -/
def Player.addToInventory (p : Player) (item : String) : Player :=
  { p with inventory := p.inventory ++ [item] }

/-- Player::addCoins. -/
def Player.addCoins (p : Player) (amount : Int) : Player :=
  { p with coins := p.coins + amount }

/-- Console variant Player::useMove: moves-- unconditionally. -/
def Player.useMoveNogui (p : Player) : Player :=
  { p with moves := p.moves - 1 }

/-- GUI variant Player::useMove: decrement only when moves > 0. -/
def Player.useMoveGUI (p : Player) : Player :=
  if p.moves > 0 then { p with moves := p.moves - 1 } else p

/-- Player::incrementEnemiesDefeated. -/
def Player.incrementEnemiesDefeated (p : Player) : Player :=
  { p with enemiesDefeated := p.enemiesDefeated + 1 }

/-- Strict lexicographic comparison of character lists by codepoint,
mirroring std::string operator< (codepoint order coincides with byte
order on the ASCII strings the game uses). -/
def charListLt : List Char → List Char → Bool
  | _, [] => false
  | [], _ :: _ => true
  | c :: cs, d :: ds =>
    if c < d then true else if d < c then false else charListLt cs ds

/-- std::string operator< on strings. -/
def strLt (a b : String) : Bool := charListLt a.data b.data

/-- The non-strict order induced by strLt: a stable sort driven by the
strict comparator comp places x before y exactly when not comp(y, x). -/
def strLe (a b : String) : Bool := !(strLt b a)

/-- ASCII tolower applied to every character of a string, as the GUI
sort comparator does with std::transform and ::tolower. -/
def strLower (s : String) : String := String.mk (s.data.map Char.toLower)

/-- The order produced by the GUI sortInventory lambda, whose strict
comparator is lowerA < lowerB: case-insensitive non-strict comparison. -/
def ciLe (a b : String) : Bool := strLe (strLower a) (strLower b)

/-- GUI variant Player::sortInventory: std::list::sort with the
case-insensitive comparator.  std::list::sort is a stable sort, and any
stable sort over the same total preorder produces the same output, so it
is embedded as the stable insertionSort over the induced non-strict
order. -/
def Player.sortInventoryGUI (p : Player) : Player :=
  { p with inventory := p.inventory.insertionSort (fun a b => ciLe a b = true) }

/-- Console variant Player::sortInventory: inventory.sort(), the same
stable sort with the default case-sensitive string comparison. -/
def Player.sortInventoryNogui (p : Player) : Player :=
  { p with inventory := p.inventory.insertionSort (fun a b => strLe a b = true) }

/-- Room "Base" from the Dungeon constructor (identical in both variants). -/
def roomBase : Room :=
  { name := "Base",
    enemy := { name := "Shadow Stalker",
               description := "A stealthy, dark creature.", health := 15 },
    treasure := { item1 := "5 Coins", item2 := "Armour", key := "Key1" },
    challenge := "Collect 5 coins" }

/-- Room "Bronze" from the Dungeon constructor. -/
def roomBronze : Room :=
  { name := "Bronze",
    enemy := { name := "Viper",
               description := "A venomous menace.", health := 25 },
    treasure := { item1 := "5 Coins", item2 := "Health Booster Potion",
                  key := "Key2" },
    challenge := "Exit the room within 5 seconds" }

/-- Room "Platinum" from the Dungeon constructor. -/
def roomPlatinum : Room :=
  { name := "Platinum",
    enemy := { name := "Crawler",
               description := "A fast, wall-climbing creature.", health := 35 },
    treasure := { item1 := "Health Booster Potion", item2 := "Armour",
                  key := "Key3" },
    challenge := "Defeat the enemy without armour" }

/-- Room "Silver" from the Dungeon constructor. -/
def roomSilver : Room :=
  { name := "Silver",
    enemy := { name := "Hunter",
               description := "A swift and deadly assassin.", health := 50 },
    treasure := { item1 := "5 Coins", item2 := "Armour", key := "Key4" },
    challenge := "Riddle: I have no voice, but I can teach you all I know. What am I? (Answer: book)" }

/-- Room "Gold" from the Dungeon constructor. -/
def roomGold : Room :=
  { name := "Gold",
    enemy := { name := "Boss",
               description := "The ultimate challenge.", health := 70 },
    treasure := { item1 := "5 Coins", item2 := "Health Booster Potion",
                  key := "Key5" },
    challenge := "Defeat the boss" }

/-- The fixed room catalog built by the Dungeon constructor, identical
in both variants. -/
def roomCatalog : List Room :=
  [roomBase, roomBronze, roomPlatinum, roomSilver, roomGold]

/-- Dungeon navigation state.  The C++ roomStack holds non-owning
pointers into the catalog; since every room object has a unique address,
pointer identity is exactly catalog-index identity, so the stack is
embedded as the list of catalog indices (top of stack at the head). -/
structure Dungeon where
  roomStack : List Nat
  currentRoomIndex : Int
deriving DecidableEq

/-- Catalog lookup at a C++ int index with the getAsset / getCurrentRoom
bounds check: a room iff 0 <= i < size, the no-room sentinel otherwise. -/
def getRoom (i : Int) : Option Room :=
  if 0 ≤ i then roomCatalog[i.toNat]? else none

/-- Dungeon::getCurrentRoom (both variants): the room at
currentRoomIndex when in bounds, otherwise the no-room sentinel. -/
def Dungeon.getCurrentRoom (d : Dungeon) : Option Room :=
  getRoom d.currentRoomIndex

/-- Console variant Dungeon constructor: currentRoomIndex starts at -1
(before the first room), empty stack. -/
def Dungeon.startNogui : Dungeon := { roomStack := [], currentRoomIndex := -1 }

/-- GUI variant Dungeon constructor: currentRoomIndex starts at 0,
empty stack. -/
def Dungeon.startGUI : Dungeon := { roomStack := [], currentRoomIndex := 0 }

/-- GUI variant Dungeon::advanceToNextRoom: when the index is below the
catalog size, push the current room if the index is in bounds, increment
the index, and return the room at the new index when that is still in
bounds, the sentinel otherwise; when the index is already at or past the
size, return the sentinel without mutating anything. -/
def Dungeon.advanceToNextRoomGUI (d : Dungeon) : Option Room × Dungeon :=
  if d.currentRoomIndex < (roomCatalog.length : Int) then
    let d1 : Dungeon :=
      if 0 ≤ d.currentRoomIndex ∧ d.currentRoomIndex < (roomCatalog.length : Int) then
        { d with roomStack := d.currentRoomIndex.toNat :: d.roomStack }
      else d
    let newIndex := d.currentRoomIndex + 1
    let d2 : Dungeon := { d1 with currentRoomIndex := newIndex }
    if newIndex < (roomCatalog.length : Int) then (getRoom newIndex, d2)
    else (none, d2)
  else (none, d)

/-- Console variant Dungeon::advanceToNextRoom: when the index is below
size - 1, increment it, push the room at the NEW index, and return that
room; otherwise return the sentinel without mutating anything. -/
def Dungeon.advanceToNextRoomNogui (d : Dungeon) : Option Room × Dungeon :=
  if d.currentRoomIndex < (roomCatalog.length : Int) - 1 then
    let newIndex := d.currentRoomIndex + 1
    (getRoom newIndex,
     { roomStack := newIndex.toNat :: d.roomStack, currentRoomIndex := newIndex })
  else (none, d)

/-- Dungeon::backtrack, identical logic in both variants: with more than
one stack entry, pop the top, let the new top be the previous room, scan
the catalog for its position to update currentRoomIndex (the scan finds
the entry's own index, and finds nothing when the index would be out of
bounds, which no push ever produces), and return that room; with at most
one entry, return the sentinel without mutating anything. -/
def Dungeon.backtrack (d : Dungeon) : Option Room × Dungeon :=
  match d.roomStack with
  | _ :: prev :: rest =>
    let d1 : Dungeon := { d with roomStack := prev :: rest }
    let d2 : Dungeon :=
      if prev < roomCatalog.length then { d1 with currentRoomIndex := (prev : Int) }
      else d1
    (getRoom (prev : Int), d2)
  | _ => (none, d)

/-- Outcome of a resolved turn. -/
inductive Outcome where
  | win
  | loseHealth
  | loseMoves
  | quit
  | continueGame
deriving DecidableEq

/-- The Fight branch of the turn switch (case 1) of the GUI game loop,
applied to the player after the unconditional useMove: on sufficient
health, take damage equal to the enemy threshold, collect both treasure
items, add 10 coins, count the defeat and advance; otherwise take 10
flat damage and stay in the room.  Returns (player, dungeon, new current
room pointer). -/
def fightResolveGUI (p : Player) (cur : Room) (d : Dungeon) :
    Player × Dungeon × Option Room :=
  if cur.enemy.health ≤ p.health then
    let p1 := ((((p.takeDamage cur.enemy.health).addToInventory
        cur.treasure.item1).addToInventory cur.treasure.item2).addCoins
        10).incrementEnemiesDefeated
    let ad := d.advanceToNextRoomGUI
    (p1, ad.2, ad.1)
  else
    (p.takeDamage 10, d, some cur)

/-- One resolved action of gameLoopWithGUI in the PLAYING state: the
unconditional useMove, the four-way switch (Quit sets the game-over flag
and skips the classification), then the win/lose classification that
runs while still PLAYING.  Returns (player, dungeon, current room,
outcome). -/
def stepGUI (p : Player) (d : Dungeon) (cur : Room) (choice : Nat) :
    Player × Dungeon × Option Room × Outcome :=
  let p1 := p.useMoveGUI
  let afterSwitch : Player × Dungeon × Option Room × Bool :=
    match choice with
    | 1 =>
      let fr := fightResolveGUI p1 cur d
      (fr.1, fr.2.1, fr.2.2, false)
    | 2 =>
      let ad := d.advanceToNextRoomGUI
      (p1.takeDamage 5, ad.2, ad.1, false)
    | 3 =>
      let bt := d.backtrack
      match bt.1 with
      | some prev => (p1, bt.2, some prev, false)
      | none => (p1, bt.2, some cur, false)
    | 4 => (p1, d, some cur, true)
    | _ => (p1, d, some cur, false)
  let p2 := afterSwitch.1
  let d2 := afterSwitch.2.1
  let r2 := afterSwitch.2.2.1
  let o : Outcome :=
    if afterSwitch.2.2.2 then Outcome.quit
    else if r2 = none then Outcome.win
    else if p2.health < 20 then Outcome.loseHealth
    else if p2.moves ≤ 0 then Outcome.loseMoves
    else Outcome.continueGame
  (p2, d2, r2, o)

/-- Run gameLoopWithGUI from a PLAYING state over a list of resolved
action choices, stopping at the first terminal outcome, where the
GAME_OVER handling sorts the inventory before the final stats are
drawn.  An exhausted choice list leaves the game waiting for input with
outcome continueGame. -/
def runGUI : List Nat → Player → Dungeon → Room →
    Player × Dungeon × Option Room × Outcome
  | [], p, d, cur => (p, d, some cur, Outcome.continueGame)
  | choice :: rest, p, d, cur =>
    let st := stepGUI p d cur choice
    match st.2.2.2, st.2.2.1 with
    | Outcome.continueGame, some nextRoom => runGUI rest st.1 st.2.1 nextRoom
    | Outcome.continueGame, none => (st.1, st.2.1, none, Outcome.continueGame)
    | o, r => (st.1.sortInventoryGUI, st.2.1, r, o)

/-- Entering the PLAYING state for the first time in the GUI loop:
currentRoom is null, so the loop first calls advanceToNextRoom on the
freshly constructed dungeon (index 0), then plays the given choices.
The error branch for an empty catalog cannot occur with the fixed
five-room catalog. -/
def runGUIFromStart (n : String) (choices : List Nat) :
    Player × Dungeon × Option Room × Outcome :=
  let ad := Dungeon.startGUI.advanceToNextRoomGUI
  match ad.1 with
  | some firstRoom => runGUI choices (Player.start n) ad.2 firstRoom
  | none => (Player.start n, ad.2, none, Outcome.quit)

/-- The recursive console gameLoop, driven by the list of menu choices
the player will enter.  The health-below-20 and out-of-moves checks run
at the top of each call; at game start the null current room triggers
the initial advance; Fight and Bypass test for the win inline after
advancing and are the only paths that sort the inventory before
displayRanking, while the loseHealth, loseMoves and quit paths report
the final stats without sorting.  An exhausted choice list leaves the
game waiting for input with outcome continueGame. -/
def gameLoopNogui : List Nat → Player → Dungeon →
    Player × Dungeon × Outcome
  | choices, p, d =>
    if p.health < 20 then (p, d, Outcome.loseHealth)
    else if p.moves ≤ 0 then (p, d, Outcome.loseMoves)
    else
      let start : Option Room × Dungeon :=
        match d.getCurrentRoom with
        | some r => (some r, d)
        | none => d.advanceToNextRoomNogui
      match start.1 with
      | none => (p, start.2, Outcome.continueGame)
      | some cur =>
        match choices with
        | [] => (p, start.2, Outcome.continueGame)
        | choice :: rest =>
          let p1 := p.useMoveNogui
          match choice with
          | 1 =>
            if cur.enemy.health ≤ p1.health then
              let p2 := ((((p1.takeDamage cur.enemy.health).addToInventory
                  cur.treasure.item1).addToInventory cur.treasure.item2).addCoins
                  10).incrementEnemiesDefeated
              let ad := start.2.advanceToNextRoomNogui
              match ad.1 with
              | none => (p2.sortInventoryNogui, ad.2, Outcome.win)
              | some _ => gameLoopNogui rest p2 ad.2
            else gameLoopNogui rest (p1.takeDamage 10) start.2
          | 2 =>
            let p2 := p1.takeDamage 5
            let ad := start.2.advanceToNextRoomNogui
            match ad.1 with
            | none => (p2.sortInventoryNogui, ad.2, Outcome.win)
            | some _ => gameLoopNogui rest p2 ad.2
          | 3 =>
            let bt := start.2.backtrack
            gameLoopNogui rest p1 bt.2
          | 4 => (p1, start.2, Outcome.quit)
          | _ => gameLoopNogui rest p1 start.2

/-- The Player mutators as a syntactic operation type, for stating
invariants over arbitrary operation sequences (GUI variant useMove and
sortInventory). -/
inductive PlayerOp where
  | heal (amount : Int)
  | takeDamage (amount : Int)
  | addToInventory (item : String)
  | addCoins (amount : Int)
  | useMove
  | incrementEnemiesDefeated
  | sortInventory
deriving DecidableEq

/-- Apply one Player operation. -/
def applyPlayerOp (p : Player) : PlayerOp → Player
  | PlayerOp.heal a => p.heal a
  | PlayerOp.takeDamage a => p.takeDamage a
  | PlayerOp.addToInventory s => p.addToInventory s
  | PlayerOp.addCoins a => p.addCoins a
  | PlayerOp.useMove => p.useMoveGUI
  | PlayerOp.incrementEnemiesDefeated => p.incrementEnemiesDefeated
  | PlayerOp.sortInventory => p.sortInventoryGUI

/-- Apply a sequence of Player operations in order. -/
def applyPlayerOps (p : Player) (ops : List PlayerOp) : Player :=
  ops.foldl applyPlayerOp p

/-- Navigation operations of the GUI dungeon, for stating invariants
over arbitrary advance / backtrack sequences. -/
inductive NavOp where
  | advance
  | back
deriving DecidableEq

/-- Apply one navigation operation (GUI variant), keeping the state. -/
def applyNavOp (d : Dungeon) : NavOp → Dungeon
  | NavOp.advance => d.advanceToNextRoomGUI.2
  | NavOp.back => d.backtrack.2

/-- Apply a sequence of navigation operations in order. -/
def applyNavOps (d : Dungeon) (ops : List NavOp) : Dungeon :=
  ops.foldl applyNavOp d

/-! Helper lemmas shared by several claims. -/

/-- A room lookup at an in-bounds index yields a room. -/
theorem getRoom_isSome (i : Int) (h0 : 0 ≤ i)
    (h5 : i < (roomCatalog.length : Int)) : (getRoom i).isSome = true := by
  unfold getRoom
  rw [if_pos h0]
  have hlt : i.toNat < roomCatalog.length := by omega
  simp [List.getElem?_eq_getElem hlt]

/-- Any room found in the catalog at an index at least 1 is not Base. -/
theorem catalog_tail_ne_base (k : Nat) (hk : 1 ≤ k) (r : Room)
    (h : roomCatalog[k]? = some r) : r ≠ roomBase := by
  rcases k with _ | _ | _ | _ | _ | m
  · omega
  · simp [roomCatalog] at h; subst h; decide
  · simp [roomCatalog] at h; subst h; decide
  · simp [roomCatalog] at h; subst h; decide
  · simp [roomCatalog] at h; subst h; decide
  · simp [roomCatalog, List.getElem?_eq_none] at h

/-- A concrete player with health 5, used to exercise the weak-fight branch. -/
def weakPlayer : Player :=
  { name := "p", health := 5, inventory := [], moves := 10, coins := 0,
    enemiesDefeated := 0 }

/-- C1 counterexample: with health 5, below the Base threshold 15, the
failed Fight clamps health at 0, a decrease of 5, not of exactly 10. -/
theorem fight_flat_damage_not_exact :
    weakPlayer.health < roomBase.enemy.health ∧
    (fightResolveGUI weakPlayer roomBase Dungeon.startGUI).1.health = 0 ∧
    weakPlayer.health - 10 ≠ (0 : Int) := by decide

/-- C1 (amended): a Fight with health at least the threshold decreases
health by exactly the threshold, appends exactly the two treasure items,
adds 10 coins, increments enemiesDefeated by 1, and advances to the next
room; a Fight with health below the threshold sets health to
max (health - 10) 0 -- a decrease of exactly 10 only when health is at
least 10 -- and leaves the dungeon, the current room and every other
player field unchanged. -/
theorem fight_resolution_spec (p : Player) (cur : Room) (d : Dungeon) :
    (cur.enemy.health ≤ p.health →
      (fightResolveGUI p cur d).1.health = p.health - cur.enemy.health ∧
      (fightResolveGUI p cur d).1.inventory
        = p.inventory ++ [cur.treasure.item1, cur.treasure.item2] ∧
      (fightResolveGUI p cur d).1.coins = p.coins + 10 ∧
      (fightResolveGUI p cur d).1.enemiesDefeated = p.enemiesDefeated + 1 ∧
      (fightResolveGUI p cur d).1.moves = p.moves ∧
      (fightResolveGUI p cur d).1.name = p.name ∧
      (fightResolveGUI p cur d).2.1 = d.advanceToNextRoomGUI.2 ∧
      (fightResolveGUI p cur d).2.2 = d.advanceToNextRoomGUI.1) ∧
    (p.health < cur.enemy.health →
      (fightResolveGUI p cur d).1.health = max (p.health - 10) 0 ∧
      (fightResolveGUI p cur d).1.inventory = p.inventory ∧
      (fightResolveGUI p cur d).1.coins = p.coins ∧
      (fightResolveGUI p cur d).1.enemiesDefeated = p.enemiesDefeated ∧
      (fightResolveGUI p cur d).1.moves = p.moves ∧
      (fightResolveGUI p cur d).1.name = p.name ∧
      (fightResolveGUI p cur d).2.1 = d ∧
      (fightResolveGUI p cur d).2.2 = some cur) := by
  constructor
  · intro h
    have hnot : ¬ p.health - cur.enemy.health < 0 := by omega
    simp [fightResolveGUI, if_pos h, Player.takeDamage, Player.addToInventory,
      Player.addCoins, Player.incrementEnemiesDefeated, hnot, h]
  · intro h
    have hno : ¬ cur.enemy.health ≤ p.health := by omega
    simp [fightResolveGUI, if_neg hno, Player.takeDamage]
    omega

/-- C1 witness: the failed-fight branch of fight_resolution_spec at the
concrete weak player against the Base room. -/
theorem fight_resolution_spec_witness :
    weakPlayer.health < roomBase.enemy.health ∧
    (fightResolveGUI weakPlayer roomBase Dungeon.startGUI).1.health
      = max (weakPlayer.health - 10) 0 ∧
    (fightResolveGUI weakPlayer roomBase Dungeon.startGUI).2.1 = Dungeon.startGUI := by
  have h := (fight_resolution_spec weakPlayer roomBase Dungeon.startGUI).2 (by decide)
  exact ⟨by decide, h.1, h.2.2.2.2.2.2.1⟩

/-- C2 counterexample: the console variant advanceToNextRoom from index
0 with stack [0] pushes the room at the NEW index (1), not the current
room (0) before incrementing, and from the last room (index 4) it
returns the sentinel without growing the stack. -/
theorem advance_console_differs :
    (Dungeon.advanceToNextRoomNogui
        { roomStack := [0], currentRoomIndex := 0 }).2.roomStack = [1, 0] ∧
    ([1, 0] : List Nat) ≠ 0 :: [0] ∧
    Dungeon.advanceToNextRoomNogui
        { roomStack := [4, 3, 2, 1, 0], currentRoomIndex := 4 }
      = (none, { roomStack := [4, 3, 2, 1, 0], currentRoomIndex := 4 }) ∧
    ([4, 3, 2, 1, 0] : List Nat).length ≠ ([4, 3, 2, 1, 0] : List Nat).length + 1 := by
  decide

/-- C2 (amended, GUI variant): whenever a current room exists, the GUI
advanceToNextRoom pushes that current room onto the stack before
incrementing currentRoomIndex, increments it, and returns the room at
the new index when that index is within catalog bounds and the sentinel
otherwise; the stack grows by exactly one entry on every such forward
step, including the attempted step that exhausts the catalog. -/
theorem advance_gui_spec (d : Dungeon)
    (h0 : 0 ≤ d.currentRoomIndex)
    (h5 : d.currentRoomIndex < (roomCatalog.length : Int)) :
    (d.advanceToNextRoomGUI.2).roomStack
      = d.currentRoomIndex.toNat :: d.roomStack ∧
    (d.advanceToNextRoomGUI.2).currentRoomIndex = d.currentRoomIndex + 1 ∧
    (d.currentRoomIndex + 1 < (roomCatalog.length : Int) →
      d.advanceToNextRoomGUI.1 = getRoom (d.currentRoomIndex + 1) ∧
      (d.advanceToNextRoomGUI.1).isSome = true) ∧
    ((roomCatalog.length : Int) ≤ d.currentRoomIndex + 1 →
      d.advanceToNextRoomGUI.1 = none) ∧
    (d.advanceToNextRoomGUI.2).roomStack.length = d.roomStack.length + 1 := by
  by_cases h6 : d.currentRoomIndex + 1 < (roomCatalog.length : Int)
  · have hr := getRoom_isSome (d.currentRoomIndex + 1) (by omega) h6
    simp [Dungeon.advanceToNextRoomGUI, if_pos h5, if_pos (And.intro h0 h5),
      if_pos h6, hr]
    intro hc
    omega
  · simp [Dungeon.advanceToNextRoomGUI, if_pos h5, if_pos (And.intro h0 h5),
      if_neg h6]
    omega

/-- C2 witness: the GUI advance on the exhausting step from the last
room, index 4 with a four-deep stack: the stack still grows and the
sentinel is returned. -/
theorem advance_gui_spec_witness :
    (0 : Int) ≤ 4 ∧ (4 : Int) < (roomCatalog.length : Int) ∧
    (Dungeon.advanceToNextRoomGUI
        { roomStack := [3, 2, 1, 0], currentRoomIndex := 4 }).2.roomStack
      = [4, 3, 2, 1, 0] ∧
    (Dungeon.advanceToNextRoomGUI
        { roomStack := [3, 2, 1, 0], currentRoomIndex := 4 }).1 = none := by
  have h := advance_gui_spec { roomStack := [3, 2, 1, 0], currentRoomIndex := 4 }
    (by decide) (by decide)
  exact ⟨by decide, by decide, h.1, h.2.2.2.1 (by decide)⟩

/-- C3: backtrack with at most one stack entry returns the sentinel and
mutates nothing: the stack and currentRoomIndex are exactly as before
(the room catalog is a fixed global constant in this embedding and is
never mutated by anything). -/
theorem backtrack_small_stack_noop (d : Dungeon) (h : d.roomStack.length ≤ 1) :
    d.backtrack = (none, d) := by
  obtain ⟨stack, idx⟩ := d
  rcases stack with _ | ⟨a, _ | ⟨b, rest⟩⟩
  · rfl
  · rfl
  · simp at h

/-- C3 witness: backtrack on a single-entry stack is a no-op returning
the sentinel. -/
theorem backtrack_small_stack_noop_witness :
    ({ roomStack := [0], currentRoomIndex := 1 } : Dungeon).roomStack.length ≤ 1 ∧
    ({ roomStack := [0], currentRoomIndex := 1 } : Dungeon).backtrack
      = (none, { roomStack := [0], currentRoomIndex := 1 }) := by
  exact ⟨by decide,
    backtrack_small_stack_noop { roomStack := [0], currentRoomIndex := 1 } (by decide)⟩

/-- C4: for every resolved non-Quit action of the GUI loop (Quit is
immediately terminal and skips the classification), the turn outcome is
classified in the fixed priority order: win exactly when the action left
no current room; otherwise loseHealth exactly when the updated health is
below 20; otherwise loseMoves exactly when the updated moves are at most
0; otherwise continueGame.  In particular a turn that exhausts the
catalog wins even when it also leaves health below 20 or moves at 0. -/
theorem outcome_priority (p : Player) (d : Dungeon) (cur : Room) (choice : Nat)
    (hq : choice ≠ 4) :
    ((stepGUI p d cur choice).2.2.2 = Outcome.win ↔
      (stepGUI p d cur choice).2.2.1 = none) ∧
    ((stepGUI p d cur choice).2.2.1 ≠ none →
      ((stepGUI p d cur choice).2.2.2 = Outcome.loseHealth ↔
        (stepGUI p d cur choice).1.health < 20)) ∧
    ((stepGUI p d cur choice).2.2.1 ≠ none →
      ¬ (stepGUI p d cur choice).1.health < 20 →
      ((stepGUI p d cur choice).2.2.2 = Outcome.loseMoves ↔
        (stepGUI p d cur choice).1.moves ≤ 0)) ∧
    ((stepGUI p d cur choice).2.2.1 ≠ none →
      ¬ (stepGUI p d cur choice).1.health < 20 →
      ¬ (stepGUI p d cur choice).1.moves ≤ 0 →
      (stepGUI p d cur choice).2.2.2 = Outcome.continueGame) := by
  rcases choice with _ | _ | _ | _ | _ | m
  · simp only [stepGUI]
    split_ifs <;> simp_all
  · simp only [stepGUI]
    split_ifs <;> simp_all
  · simp only [stepGUI]
    split_ifs <;> simp_all
  · rcases hbt : d.backtrack.1 with _ | prev <;>
      simp only [stepGUI, hbt] <;> split_ifs <;> simp_all
  · omega
  · simp only [stepGUI]
    split_ifs <;> simp_all

/-- C4 witness: the classification at a concrete resolved Fight. -/
theorem outcome_priority_witness :
    ((stepGUI (Player.start "w") Dungeon.startGUI roomBase 1).2.2.2
        = Outcome.win ↔
      (stepGUI (Player.start "w") Dungeon.startGUI roomBase 1).2.2.1 = none) ∧
    (1 : Nat) ≠ 4 := by
  exact ⟨(outcome_priority (Player.start "w") Dungeon.startGUI roomBase 1
    (by decide)).1, by decide⟩

/-- The strict lexicographic comparison is asymmetric. -/
theorem charListLt_asymm : ∀ a b : List Char,
    charListLt a b = true → charListLt b a = false := by
  intro a
  induction a with
  | nil =>
    intro b h
    cases b <;> simp [charListLt] at h ⊢
  | cons c cs ih =>
    intro b h
    cases b with
    | nil => simp [charListLt] at h
    | cons d ds =>
      simp only [charListLt] at h ⊢
      by_cases h1 : c < d
      · have h2 : ¬ d < c := lt_asymm h1
        simp [h1, h2]
      · by_cases h2 : d < c
        · simp [h1, h2] at h
        · simp only [h1, h2, if_false] at h ⊢
          exact ih ds h

/-- The induced non-strict lexicographic order is transitive. -/
theorem charListLt_le_trans : ∀ a b c : List Char,
    charListLt b a = false → charListLt c b = false → charListLt c a = false := by
  intro a
  induction a with
  | nil =>
    intro b c h1 h2
    cases c <;> simp [charListLt]
  | cons x xs ih =>
    intro b c h1 h2
    cases b with
    | nil => simp [charListLt] at h1
    | cons y ys =>
      cases c with
      | nil => simp [charListLt] at h2
      | cons z zs =>
        simp only [charListLt] at h1 h2 ⊢
        by_cases hyx : y < x
        · simp [hyx] at h1
        · by_cases hzy : z < y
          · simp [hzy] at h2
          · have hxy : x ≤ y := not_lt.mp hyx
            have hyz : y ≤ z := not_lt.mp hzy
            have hzx : ¬ z < x := not_lt.mpr (le_trans hxy hyz)
            by_cases hxz : x < z
            · simp [hzx, hxz]
            · have hxeq : x = z := le_antisymm (le_trans hxy hyz) (not_lt.mp hxz)
              have hyeq1 : ¬ x < y := by
                subst hxeq
                exact fun hc => hxz (lt_of_lt_of_le hc hyz)
              have hyeq2 : ¬ y < z := by
                subst hxeq
                exact fun hc => hxz (lt_of_le_of_lt hxy hc)
              simp only [hyx, hyeq1, if_false] at h1
              simp only [hzy, hyeq2, if_false] at h2
              simp only [hzx, hxz, if_false]
              exact ih ys zs h1 h2

/-- Totality of the string order used by the console sort. -/
theorem strLe_total (a b : String) : strLe a b = true ∨ strLe b a = true := by
  unfold strLe strLt
  by_cases h : charListLt b.data a.data = true
  · right
    simp [charListLt_asymm _ _ h]
  · left
    simp [Bool.not_eq_true] at h
    simp [h]

/-- Transitivity of the string order used by the console sort. -/
theorem strLe_trans (a b c : String) (h1 : strLe a b = true)
    (h2 : strLe b c = true) : strLe a c = true := by
  unfold strLe strLt at h1 h2 ⊢
  simp only [Bool.not_eq_true', Bool.not_eq_eq_eq_not, Bool.not_true] at h1 h2 ⊢
  exact charListLt_le_trans a.data b.data c.data h1 h2

/-- Totality of the case-insensitive order used by the GUI sort. -/
theorem ciLe_total (a b : String) : ciLe a b = true ∨ ciLe b a = true :=
  strLe_total (strLower a) (strLower b)

/-- Transitivity of the case-insensitive order used by the GUI sort. -/
theorem ciLe_trans (a b c : String) (h1 : ciLe a b = true)
    (h2 : ciLe b c = true) : ciLe a c = true :=
  strLe_trans (strLower a) (strLower b) (strLower c) h1 h2

/-- C5 (code bug): the console game loop sorts the inventory only on the
two WIN paths; on LOSE and QUIT it calls displayRanking directly, so the
final stats -- whose output is labelled "Inventory (Sorted):" -- show
the unsorted inventory.  Concretely, fighting Base and Bronze and then
quitting ends with outcome quit and an inventory that is not sorted
under either the case-sensitive or the case-insensitive order.  (The GUI
variant sorts on every terminal outcome.) -/
theorem quit_reports_unsorted_inventory :
    (gameLoopNogui [1, 1, 4] (Player.start "p") Dungeon.startNogui).2.2
      = Outcome.quit ∧
    (gameLoopNogui [1, 1, 4] (Player.start "p") Dungeon.startNogui).1.inventory
      = ["5 Coins", "Armour", "5 Coins", "Health Booster Potion"] ∧
    ¬ List.Pairwise (fun a b : String => strLe a b = true)
      ["5 Coins", "Armour", "5 Coins", "Health Booster Potion"] ∧
    ¬ List.Pairwise (fun a b : String => ciLe a b = true)
      ["5 Coins", "Armour", "5 Coins", "Health Booster Potion"] := by decide

/-- C6 counterexample: the console sortInventory is case-sensitive, so
on ["armour", "5 Coins", "Key"] it produces ["5 Coins", "Key", "armour"]
(uppercase before lowercase in ASCII), not the case-insensitive order
["5 Coins", "armour", "Key"] the claim requires. -/
theorem sort_console_case_sensitive :
    (Player.sortInventoryNogui
      { Player.start "p" with inventory := ["armour", "5 Coins", "Key"] }).inventory
      = ["5 Coins", "Key", "armour"] ∧
    (["5 Coins", "Key", "armour"] : List String) ≠ ["5 Coins", "armour", "Key"] := by
  decide

/-- C6 (amended, GUI variant): sortInventory reorders every inventory
into ascending order under case-insensitive lexicographic comparison --
the result is a permutation of the input sorted by the ASCII-folded
keys, treating A and a alike -- and on ["armour", "5 Coins", "Key"] it
yields ["5 Coins", "armour", "Key"].  (The console variant sorts
case-sensitively instead.) -/
theorem sortInventory_ci_spec (p : Player) :
    (p.sortInventoryGUI).inventory.Perm p.inventory ∧
    List.Pairwise (fun a b => ciLe a b = true) (p.sortInventoryGUI).inventory ∧
    (Player.sortInventoryGUI
      { Player.start "q" with inventory := ["armour", "5 Coins", "Key"] }).inventory
      = ["5 Coins", "armour", "Key"] := by
  haveI : IsTotal String (fun a b => ciLe a b = true) := ⟨ciLe_total⟩
  haveI : IsTrans String (fun a b => ciLe a b = true) := ⟨ciLe_trans⟩
  refine ⟨?_, ?_, by decide⟩
  · simp only [Player.sortInventoryGUI]
    exact List.perm_insertionSort _ _
  · simp only [Player.sortInventoryGUI]
    exact List.sorted_insertionSort _ _

/-- C7 counterexample: the console useMove called at moves = 0 yields
moves = -1, not 0. -/
theorem useMove_console_goes_negative :
    (Player.useMoveNogui { Player.start "p" with moves := 0 }).moves = -1 ∧
    (-1 : Int) ≠ 0 := by decide

/-- Moves stay nonnegative under any single GUI player operation. -/
theorem applyPlayerOp_moves_nonneg (p : Player) (op : PlayerOp)
    (h : 0 ≤ p.moves) : 0 ≤ (applyPlayerOp p op).moves := by
  cases op <;>
    simp only [applyPlayerOp, Player.heal, Player.takeDamage,
      Player.addToInventory, Player.addCoins, Player.useMoveGUI,
      Player.incrementEnemiesDefeated, Player.sortInventoryGUI] <;>
    (try split_ifs) <;> (try simp) <;> omega

/-- Moves stay nonnegative under any sequence of GUI player operations. -/
theorem applyPlayerOps_moves_nonneg (ops : List PlayerOp) (p : Player)
    (h : 0 ≤ p.moves) : 0 ≤ (applyPlayerOps p ops).moves := by
  induction ops generalizing p with
  | nil => simpa [applyPlayerOps] using h
  | cons op rest ih =>
    have h1 := applyPlayerOp_moves_nonneg p op h
    simpa [applyPlayerOps, List.foldl] using ih (applyPlayerOp p op) h1

/-- C7 (amended, GUI variant): useMove decrements moves by exactly one,
floored at 0 -- calling it at moves = 0 leaves moves at 0 -- and
moves >= 0 is preserved by every sequence of player operations starting
from the initial moves = 10.  (The console variant decrements
unconditionally, so there useMove at moves = 0 yields -1.) -/
theorem useMove_floor_spec (p : Player) (n : String) (ops : List PlayerOp) :
    (p.moves = 0 → (p.useMoveGUI).moves = 0) ∧
    (0 < p.moves → (p.useMoveGUI).moves = p.moves - 1) ∧
    0 ≤ (applyPlayerOps (Player.start n) ops).moves := by
  refine ⟨?_, ?_, applyPlayerOps_moves_nonneg ops (Player.start n)
    (by simp [Player.start])⟩
  · intro h
    simp [Player.useMoveGUI, h]
  · intro h
    simp [Player.useMoveGUI, h]

/-- C7 witness: the floor at 0 and the invariant at a concrete player
and operation sequence. -/
theorem useMove_floor_spec_witness :
    ({ Player.start "w" with moves := 0 } : Player).moves = 0 ∧
    (Player.useMoveGUI { Player.start "w" with moves := 0 }).moves = 0 ∧
    0 ≤ (applyPlayerOps (Player.start "w")
      [PlayerOp.useMove, PlayerOp.takeDamage 7, PlayerOp.useMove]).moves := by
  have h := useMove_floor_spec { Player.start "w" with moves := 0 } "w"
    [PlayerOp.useMove, PlayerOp.takeDamage 7, PlayerOp.useMove]
  exact ⟨by decide, h.1 (by decide), h.2.2⟩

/-- C8 counterexample: after three consecutive Fights health is 25 and
the current room is Silver with threshold 50, so the scenario hypothesis
that health stays at or above each threshold before the corresponding
fight cannot hold; the actual run of five consecutive Fights does not
WIN and does not reach enemiesDefeated = 5. -/
theorem five_fights_scenario_false :
    (gameLoopNogui [1, 1, 1] (Player.start "p") Dungeon.startNogui).1.health = 25 ∧
    (gameLoopNogui [1, 1, 1] (Player.start "p") Dungeon.startNogui).2.1.getCurrentRoom
      = some roomSilver ∧
    ¬ ((50 : Int) ≤ 25) ∧
    (gameLoopNogui [1, 1, 1, 1, 1] (Player.start "p") Dungeon.startNogui).2.2
      ≠ Outcome.win ∧
    (gameLoopNogui [1, 1, 1, 1, 1] (Player.start "p") Dungeon.startNogui).1.enemiesDefeated
      ≠ 5 := by decide

/-- C8 (amended): from health 100 and moves 10, consecutive Fights
defeat Base, Bronze and Platinum (health 85, 60, 25); the fourth Fight
against Silver fails since 25 < 50 and drops health to 15, and the next
turn ends the game with LOSE (critical health), enemiesDefeated = 3,
coins = 30 and inventory size 6 -- the claimed WIN with enemiesDefeated
5, coins 50 and inventory size 10 is unreachable by consecutive
Fights. -/
theorem five_fights_actual_run :
    (gameLoopNogui [1, 1, 1, 1, 1] (Player.start "p") Dungeon.startNogui).2.2
      = Outcome.loseHealth ∧
    (gameLoopNogui [1, 1, 1, 1, 1] (Player.start "p") Dungeon.startNogui).1.health
      = 15 ∧
    (gameLoopNogui [1, 1, 1, 1, 1] (Player.start "p") Dungeon.startNogui).1.coins
      = 30 ∧
    (gameLoopNogui [1, 1, 1, 1, 1] (Player.start "p") Dungeon.startNogui).1.enemiesDefeated
      = 3 ∧
    (gameLoopNogui [1, 1, 1, 1, 1] (Player.start "p") Dungeon.startNogui).1.inventory.length
      = 6 := by decide

/-- The GUI useMove changes no field except moves. -/
theorem useMoveGUI_fields (p : Player) :
    (p.useMoveGUI).health = p.health ∧ (p.useMoveGUI).coins = p.coins ∧
    (p.useMoveGUI).enemiesDefeated = p.enemiesDefeated ∧
    (p.useMoveGUI).inventory = p.inventory := by
  unfold Player.useMoveGUI
  split_ifs <;> simp

/-- Earnings effect of the Fight branch on the player's coins, defeats
and inventory. -/
theorem fightResolveGUI_earnings (q : Player) (cur : Room) (d : Dungeon) :
    (cur.enemy.health ≤ q.health →
      (fightResolveGUI q cur d).1.coins = q.coins + 10 ∧
      (fightResolveGUI q cur d).1.enemiesDefeated = q.enemiesDefeated + 1 ∧
      (fightResolveGUI q cur d).1.inventory.length = q.inventory.length + 2) ∧
    (q.health < cur.enemy.health →
      (fightResolveGUI q cur d).1.coins = q.coins ∧
      (fightResolveGUI q cur d).1.enemiesDefeated = q.enemiesDefeated ∧
      (fightResolveGUI q cur d).1.inventory = q.inventory) := by
  constructor
  · intro h
    simp [fightResolveGUI, if_pos h, Player.takeDamage, Player.addToInventory,
      Player.addCoins, Player.incrementEnemiesDefeated]
  · intro h
    have hno : ¬ cur.enemy.health ≤ q.health := by omega
    simp [fightResolveGUI, if_neg hno, Player.takeDamage]

/-- Earnings effect of one resolved GUI action: a successful Fight adds
10 coins, one defeat and two inventory items together; every other
action (failed Fight, Bypass, Backtrack, Quit, unrecognized choice)
changes none of the three. -/
theorem stepGUI_earnings (p : Player) (d : Dungeon) (cur : Room) (choice : Nat) :
    (choice = 1 ∧ cur.enemy.health ≤ p.health →
      (stepGUI p d cur choice).1.coins = p.coins + 10 ∧
      (stepGUI p d cur choice).1.enemiesDefeated = p.enemiesDefeated + 1 ∧
      (stepGUI p d cur choice).1.inventory.length = p.inventory.length + 2) ∧
    (choice = 1 ∧ p.health < cur.enemy.health →
      (stepGUI p d cur choice).1.coins = p.coins ∧
      (stepGUI p d cur choice).1.enemiesDefeated = p.enemiesDefeated ∧
      (stepGUI p d cur choice).1.inventory = p.inventory) ∧
    (choice ≠ 1 →
      (stepGUI p d cur choice).1.coins = p.coins ∧
      (stepGUI p d cur choice).1.enemiesDefeated = p.enemiesDefeated ∧
      (stepGUI p d cur choice).1.inventory = p.inventory) := by
  obtain ⟨hh, hc, he, hi⟩ := useMoveGUI_fields p
  rcases choice with _ | _ | _ | _ | _ | m
  · refine ⟨?_, ?_, ?_⟩ <;> intro hx
    · omega
    · omega
    · simp only [stepGUI]
      exact ⟨hc, he, hi⟩
  · have hfe := fightResolveGUI_earnings p.useMoveGUI cur d
    refine ⟨?_, ?_, ?_⟩ <;> intro hx
    · have h1 := hfe.1 (by rw [hh]; exact hx.2)
      simp only [stepGUI]
      rw [h1.1, h1.2.1, h1.2.2, hc, he, hi]
      exact ⟨rfl, rfl, rfl⟩
    · have h1 := hfe.2 (by rw [hh]; exact hx.2)
      simp only [stepGUI]
      rw [h1.1, h1.2.1, h1.2.2, hc, he, hi]
      exact ⟨rfl, rfl, rfl⟩
    · omega
  · refine ⟨?_, ?_, ?_⟩ <;> intro hx
    · omega
    · omega
    · simp only [stepGUI, Player.takeDamage]
      simp only [Player.useMoveGUI] at *
      split_ifs <;> simp_all
  · refine ⟨?_, ?_, ?_⟩ <;> intro hx
    · omega
    · omega
    · rcases hbt : d.backtrack.1 with _ | prev <;>
        simp only [stepGUI, hbt] <;> exact ⟨hc, he, hi⟩
  · refine ⟨?_, ?_, ?_⟩ <;> intro hx
    · omega
    · omega
    · simp only [stepGUI]
      exact ⟨hc, he, hi⟩
  · refine ⟨?_, ?_, ?_⟩ <;> intro hx
    · omega
    · omega
    · simp only [stepGUI]
      exact ⟨hc, he, hi⟩

/-- The coins / defeats / inventory-size coupling of reachable players. -/
def earningsInvariant (p : Player) : Prop :=
  p.coins = 10 * p.enemiesDefeated ∧
  p.inventory.length = 2 * p.enemiesDefeated

/-- One resolved GUI action preserves the earnings coupling. -/
theorem stepGUI_earningsInvariant (p : Player) (d : Dungeon) (cur : Room)
    (choice : Nat) (h : earningsInvariant p) :
    earningsInvariant (stepGUI p d cur choice).1 := by
  obtain ⟨h1, h2⟩ := h
  obtain ⟨hw, hl, hu⟩ := stepGUI_earnings p d cur choice
  by_cases hchoice : choice = 1
  · subst hchoice
    by_cases hcond : cur.enemy.health ≤ p.health
    · obtain ⟨e1, e2, e3⟩ := hw ⟨rfl, hcond⟩
      exact ⟨by omega, by omega⟩
    · obtain ⟨e1, e2, e3⟩ := hl ⟨rfl, by omega⟩
      exact ⟨by omega, by rw [e3]; omega⟩
  · obtain ⟨e1, e2, e3⟩ := hu hchoice
    exact ⟨by omega, by rw [e3]; omega⟩

/-- The terminal sort preserves the earnings coupling (it permutes the
inventory without changing its length). -/
theorem sortInventoryGUI_earningsInvariant (p : Player)
    (h : earningsInvariant p) : earningsInvariant p.sortInventoryGUI := by
  obtain ⟨h1, h2⟩ := h
  refine ⟨h1, ?_⟩
  simpa [Player.sortInventoryGUI, List.length_insertionSort] using h2

/-- The GUI run preserves the earnings coupling from any starting state. -/
theorem runGUI_earningsInvariant (choices : List Nat) (p : Player)
    (d : Dungeon) (cur : Room) (h : earningsInvariant p) :
    earningsInvariant (runGUI choices p d cur).1 := by
  induction choices generalizing p d cur with
  | nil => simpa [runGUI] using h
  | cons choice rest ih =>
    have hstep := stepGUI_earningsInvariant p d cur choice h
    rcases ho : (stepGUI p d cur choice).2.2.2 <;>
      rcases hr : (stepGUI p d cur choice).2.2.1 with _ | room <;>
      simp only [runGUI, ho, hr] <;>
      first
        | exact ih _ _ _ hstep
        | exact hstep
        | exact sortInventoryGUI_earningsInvariant _ hstep

/-- C9: every player state reachable by the GUI turn engine from a
freshly created player satisfies coins = 10 * enemiesDefeated and
inventory length = 2 * enemiesDefeated; per resolved action, a
successful Fight adds exactly 10 coins, 1 defeat and 2 items together,
and no other action changes any of the three quantities. -/
theorem earnings_coupling (n : String) (choices : List Nat) (p : Player)
    (d : Dungeon) (cur : Room) (choice : Nat) :
    earningsInvariant (runGUIFromStart n choices).1 ∧
    (choice = 1 ∧ cur.enemy.health ≤ p.health →
      (stepGUI p d cur choice).1.coins = p.coins + 10 ∧
      (stepGUI p d cur choice).1.enemiesDefeated = p.enemiesDefeated + 1 ∧
      (stepGUI p d cur choice).1.inventory.length = p.inventory.length + 2) ∧
    (choice = 1 ∧ p.health < cur.enemy.health →
      (stepGUI p d cur choice).1.coins = p.coins ∧
      (stepGUI p d cur choice).1.enemiesDefeated = p.enemiesDefeated ∧
      (stepGUI p d cur choice).1.inventory = p.inventory) ∧
    (choice ≠ 1 →
      (stepGUI p d cur choice).1.coins = p.coins ∧
      (stepGUI p d cur choice).1.enemiesDefeated = p.enemiesDefeated ∧
      (stepGUI p d cur choice).1.inventory = p.inventory) := by
  obtain ⟨hw, hl, hu⟩ := stepGUI_earnings p d cur choice
  refine ⟨?_, hw, hl, hu⟩
  have hadv : Dungeon.startGUI.advanceToNextRoomGUI
      = (some roomBronze, { roomStack := [0], currentRoomIndex := 1 }) := by decide
  simp only [runGUIFromStart, hadv]
  exact runGUI_earningsInvariant choices (Player.start n) _ _
    ⟨by simp [Player.start], by simp [Player.start]⟩

/-- C9 witness: the invariant on a concrete run and the unchanged
earnings of a concrete Bypass action. -/
theorem earnings_coupling_witness :
    earningsInvariant (runGUIFromStart "w" [1, 2]).1 ∧
    (stepGUI (Player.start "w") Dungeon.startGUI roomBase 2).1.coins
      = (Player.start "w").coins := by
  have h := earnings_coupling "w" [1, 2] (Player.start "w") Dungeon.startGUI
    roomBase 2
  exact ⟨h.1, (h.2.2.2 (by decide)).1⟩

/-- The GUI advance either increments the index or leaves the state
untouched. -/
theorem advanceGUI_index (d : Dungeon) :
    (d.advanceToNextRoomGUI.2).currentRoomIndex = d.currentRoomIndex + 1 ∨
    d.advanceToNextRoomGUI.2 = d := by
  unfold Dungeon.advanceToNextRoomGUI
  by_cases h5 : d.currentRoomIndex < (roomCatalog.length : Int)
  · left
    rw [if_pos h5]
    dsimp only
    split_ifs <;>
      simp [apply_ite (fun x : Option Room × Dungeon => x.2.currentRoomIndex)]
  · right
    rw [if_neg h5]

/-- currentRoomIndex stays nonnegative under one GUI navigation call. -/
theorem applyNavOp_index_nonneg (d : Dungeon) (op : NavOp)
    (h : 0 ≤ d.currentRoomIndex) : 0 ≤ (applyNavOp d op).currentRoomIndex := by
  cases op with
  | advance =>
    show 0 ≤ (d.advanceToNextRoomGUI.2).currentRoomIndex
    rcases advanceGUI_index d with h1 | h1
    · omega
    · rw [h1]; exact h
  | back =>
    obtain ⟨stack, idx⟩ := d
    simp at h
    unfold applyNavOp Dungeon.backtrack
    rcases stack with _ | ⟨a, _ | ⟨b, rest⟩⟩
    · simpa using h
    · simpa using h
    · simp only
      split_ifs <;> simp
      omega

/-- currentRoomIndex stays nonnegative under any sequence of GUI
navigation calls. -/
theorem applyNavOps_index_nonneg (ops : List NavOp) (d : Dungeon)
    (h : 0 ≤ d.currentRoomIndex) : 0 ≤ (applyNavOps d ops).currentRoomIndex := by
  induction ops generalizing d with
  | nil => simpa [applyNavOps] using h
  | cons op rest ih =>
    have h1 := applyNavOp_index_nonneg d op h
    simpa [applyNavOps, List.foldl] using ih (applyNavOp d op) h1

/-- From any state with a nonnegative index, the room returned by a GUI
advance is never Base: the returned room sits at index at least 1. -/
theorem advanceGUI_ne_base (d : Dungeon) (h : 0 ≤ d.currentRoomIndex)
    (r : Room) (hr : d.advanceToNextRoomGUI.1 = some r) : r ≠ roomBase := by
  unfold Dungeon.advanceToNextRoomGUI at hr
  by_cases h5 : d.currentRoomIndex < (roomCatalog.length : Int)
  · rw [if_pos h5] at hr
    by_cases h6 : d.currentRoomIndex + 1 < (roomCatalog.length : Int)
    · simp only [if_pos h6] at hr
      unfold getRoom at hr
      rw [if_pos (by omega : (0 : Int) ≤ d.currentRoomIndex + 1)] at hr
      exact catalog_tail_ne_base _ (by omega) r hr
    · simp only [if_neg h6] at hr
      exact absurd hr (by simp)
  · rw [if_neg h5] at hr
    exact absurd hr (by simp)

/-- C10: the GUI constructor starts at index 0, so the first advance on
a fresh dungeon pushes the first catalog room, Base, onto the stack and
returns the second room, Bronze; no advance from any reachable
navigation state ever returns Base; and an immediate backtrack after
that first advance fails because the stack holds a single entry. -/
theorem first_advance_skips_base (ops : List NavOp) (r : Room) :
    Dungeon.startGUI.advanceToNextRoomGUI
      = (some roomBronze, { roomStack := [0], currentRoomIndex := 1 }) ∧
    roomCatalog[0]? = some roomBase ∧
    ((applyNavOps Dungeon.startGUI ops).advanceToNextRoomGUI.1 = some r →
      r ≠ roomBase) ∧
    Dungeon.backtrack { roomStack := [0], currentRoomIndex := 1 }
      = (none, { roomStack := [0], currentRoomIndex := 1 }) := by
  refine ⟨by decide, by decide, ?_, by decide⟩
  intro hr
  exact advanceGUI_ne_base _
    (applyNavOps_index_nonneg ops Dungeon.startGUI (by decide)) r hr

/-- C10 witness: on the empty navigation history the advance returns
Bronze, which is indeed not Base. -/
theorem first_advance_skips_base_witness :
    (applyNavOps Dungeon.startGUI []).advanceToNextRoomGUI.1 = some roomBronze ∧
    roomBronze ≠ roomBase := by
  have h := first_advance_skips_base [] roomBronze
  exact ⟨by decide, h.2.2.1 (by decide)⟩
